import Mathlib

/-!
Shallow embedding of `custom_components/ws_client.py` (the `K1CClient`
resilient WebSocket client) and proofs about its observable behaviour.

Conventions of the embedding:
* Python `float` values are modelled as exact rationals (`ℚ`): the decimal
  string parser returns the exact decimal value; binary rounding and
  overflow-to-infinity of IEEE doubles are abstracted away.
* Python `dict` is modelled as an insertion-ordered association list
  (`List (String × JVal)`): assignment overwrites the value of an existing
  key in place and appends new keys, exactly like CPython dicts.
* `json.loads` is an external library call; it is abstracted as a parameter
  `jp : String → Option JVal` (`none` = the text failed to parse as JSON).
* The observer callback `on_message` may raise; its behaviour is abstracted
  by a parameter `cbT : Dict → Bool` telling, for each snapshot it is given,
  whether it raises.  Caught exceptions are recorded in the trace.
* Transport sends are recorded as attempted writes in a trace; whether the
  remote receives them is outside the model.
-/

namespace CrealityWS

/-- JSON-like values, the payloads `json.loads` can return. -/
inductive JVal where
  | str (s : String)
  | int (n : Int)
  | float (q : ℚ)
  | bool (b : Bool)
  | null
  | arr (xs : List JVal)
  | obj (fields : List (String × JVal))

/-- A Python dict with string keys, as an insertion-ordered association list. -/
abbrev Dict := List (String × JVal)

/-- Python dict assignment `d[k] = v`: overwrite the value of the first
binding of `k` in place, or append `(k, v)` when `k` is absent. -/
def dictInsert : Dict → String → JVal → Dict
  | [], k, v => [(k, v)]
  | kv :: rest, k, v =>
      if kv.1 = k then (k, v) :: rest else kv :: dictInsert rest k v

/-- Python `d.update(u)`: assign every binding of `u` into `d`, in order. -/
def dictUpdate (d u : Dict) : Dict :=
  u.foldl (fun acc kv => dictInsert acc kv.1 kv.2) d

/-- Python `d.get(k)`: the value of the first binding of `k`, if any. -/
def dictGet (d : Dict) (k : String) : Option JVal :=
  (d.find? (fun kv => kv.1 = k)).map (fun kv => kv.2)

/-- The last value bound to `k` in the list `u`, if any (in a genuine dict
there is at most one binding, so first and last coincide). -/
def lastBind (u : Dict) (k : String) : Option JVal :=
  u.foldl (fun acc kv => if kv.1 = k then some kv.2 else acc) none

/-! ### Python numeric-string parsing

`_coerce_numbers` calls the Python builtins `int(v)` / `float(v)` on string
values.  We model the ASCII decimal grammar these builtins accept: optional
surrounding whitespace, an optional sign, digit groups in which single
underscores may appear between digits, and (for `float`) an optional
fractional part and exponent.  The `inf` / `nan` spellings of `float` are
omitted: the call site only invokes `float` on strings containing a `'.'`,
which those spellings never contain. -/

/-- Whitespace stripped by Python's numeric-string constructors (ASCII part). -/
def isPyWs (c : Char) : Bool :=
  c = ' ' || c = '\t' || c = '\n' || c = '\r' || c = '\x0b' || c = '\x0c'

/-- Strip leading and trailing whitespace. -/
def stripPyWs (cs : List Char) : List Char :=
  ((cs.dropWhile isPyWs).reverse.dropWhile isPyWs).reverse

/-- Tail of a digit group after its leading digit: digits, with single
underscores allowed only between digits. -/
def dgRest : List Char → Bool
  | [] => true
  | ['_'] => false
  | '_' :: d :: rest => d.isDigit && dgRest rest
  | c :: rest => c.isDigit && dgRest rest

/-- A valid Python digit group: nonempty, starts with a digit, underscores
only between digits. -/
def isDigitGroup : List Char → Bool
  | [] => false
  | c :: rest => c.isDigit && dgRest rest

/-- Numeric value of a digit group (underscores skipped). -/
def dgVal (cs : List Char) : Nat :=
  cs.foldl (fun a c => if c = '_' then a else a * 10 + (c.toNat - 48)) 0

/-- Number of digits in a digit group (underscores not counted). -/
def dgDigits (cs : List Char) : Nat :=
  cs.countP (fun c => c.isDigit)

/-- Sign handling of Python `int(str)` after whitespace stripping. -/
def pyIntCore? : List Char → Option Int
  | '+' :: rest => if isDigitGroup rest then some (dgVal rest : Int) else none
  | '-' :: rest => if isDigitGroup rest then some (-(dgVal rest : Int)) else none
  | cs => if isDigitGroup cs then some (dgVal cs : Int) else none

/-- Model of Python `int(v)` on a string: `some n` when the conversion
succeeds, `none` when it raises `ValueError`. -/
def pyInt? (s : String) : Option Int :=
  pyIntCore? (stripPyWs s.toList)

/-- Split off the leading maximal run of digits and underscores. -/
def takeDigitsU (cs : List Char) : List Char × List Char :=
  (cs.takeWhile (fun c => c.isDigit || c = '_'),
   cs.dropWhile (fun c => c.isDigit || c = '_'))

/-- Exponent digits of a float literal, after the optional sign. -/
def pyExpSigned? (mant : ℚ) : List Char → Option ℚ
  | '+' :: rest => if isDigitGroup rest then some (mant * (10 : ℚ) ^ dgVal rest) else none
  | '-' :: rest => if isDigitGroup rest then some (mant / (10 : ℚ) ^ dgVal rest) else none
  | cs => if isDigitGroup cs then some (mant * (10 : ℚ) ^ dgVal cs) else none

/-- Optional exponent part (`e`/`E`) of a float literal; must consume the
whole remaining input. -/
def pyExpPart? (mant : ℚ) : List Char → Option ℚ
  | [] => some mant
  | c :: rest => if c = 'e' || c = 'E' then pyExpSigned? mant rest else none

/-- Unsigned body of a Python float literal: integer part, optional `.` and
fractional part (at least one digit overall), optional exponent. -/
def pyFloatCore? (cs : List Char) : Option ℚ :=
  let ip := (takeDigitsU cs).1
  let r1 := (takeDigitsU cs).2
  match r1 with
  | '.' :: r2 =>
      let fp := (takeDigitsU r2).1
      let r3 := (takeDigitsU r2).2
      if ip.isEmpty && fp.isEmpty then none
      else if (ip.isEmpty || isDigitGroup ip) && (fp.isEmpty || isDigitGroup fp) then
        pyExpPart? ((dgVal ip : ℚ) + (dgVal fp : ℚ) / (10 : ℚ) ^ dgDigits fp) r3
      else none
  | _ => if isDigitGroup ip then pyExpPart? ((dgVal ip : ℚ)) r1 else none

/-- Sign handling of Python `float(str)` after whitespace stripping. -/
def pyFloatSigned? : List Char → Option ℚ
  | '+' :: rest => pyFloatCore? rest
  | '-' :: rest => (pyFloatCore? rest).map (fun q => -q)
  | cs => pyFloatCore? cs

/-- Model of Python `float(v)` on a string holding a decimal literal:
`some q` with the exact decimal value when the conversion succeeds,
`none` when it raises `ValueError`. -/
def pyFloat? (s : String) : Option ℚ :=
  pyFloatSigned? (stripPyWs s.toList)

/-- One value of `_coerce_numbers`' loop body: a string containing `'.'` is
tried as `float`, any other string as `int`; on conversion failure the value
is kept as-is; non-strings pass through unchanged
(`ws_client.py` lines 28-39). -/
def coerceVal : JVal → JVal
  | .str s =>
      if s.toList.contains '.' then
        match pyFloat? s with
        | some q => .float q
        | none => .str s
      else
        match pyInt? s with
        | some n => .int n
        | none => .str s
  | v => v

/-- `_coerce_numbers(d)`: rebuild the dict with every value coerced
(`ws_client.py` lines 28-39). -/
def coerce_numbers (d : Dict) : Dict :=
  d.map (fun kv => (kv.1, coerceVal kv.2))

/-! ### Inbound frames and UTF-8 decoding

`websockets` delivers text frames as `str` and binary frames as `bytes`;
the loop decodes binary frames with `raw.decode("utf-8", "ignore")`
(`ws_client.py` lines 133-137). -/

/-- One inbound WebSocket frame: text, or binary as a byte list. -/
inductive Frame where
  | text (s : String)
  | binary (bs : List Nat)

/-- Is a byte a UTF-8 continuation byte (`0x80..0xBF`)? -/
def utf8Cont (b : Nat) : Bool :=
  0x80 ≤ b && b < 0xC0

/-- UTF-8 decoding with the `"ignore"` error handler: well-formed sequences
are decoded, every invalid byte is skipped and decoding restarts at the
next byte, exactly like CPython's `bytes.decode("utf-8", "ignore")`. -/
def utf8DecodeIgnore (bs : List Nat) : List Char :=
  match bs with
  | [] => []
  | b :: rest =>
      if b < 0x80 then Char.ofNat b :: utf8DecodeIgnore rest
      else if b < 0xC2 then utf8DecodeIgnore rest
      else if b < 0xE0 then
        match rest with
        | [] => []
        | b1 :: r2 =>
            if utf8Cont b1 then
              Char.ofNat ((b - 0xC0) * 0x40 + (b1 - 0x80)) :: utf8DecodeIgnore r2
            else utf8DecodeIgnore (b1 :: r2)
      else if b < 0xF0 then
        match rest with
        | [] => []
        | b1 :: r2 =>
            if utf8Cont b1 && (b ≠ 0xE0 || 0xA0 ≤ b1) && (b ≠ 0xED || b1 < 0xA0) then
              match r2 with
              | [] => []
              | b2 :: r3 =>
                  if utf8Cont b2 then
                    Char.ofNat ((b - 0xE0) * 0x1000 + (b1 - 0x80) * 0x40 + (b2 - 0x80)) ::
                      utf8DecodeIgnore r3
                  else utf8DecodeIgnore (b2 :: r3)
            else utf8DecodeIgnore (b1 :: r2)
      else if b < 0xF5 then
        match rest with
        | [] => []
        | b1 :: r2 =>
            if utf8Cont b1 && (b ≠ 0xF0 || 0x90 ≤ b1) && (b ≠ 0xF4 || b1 < 0x90) then
              match r2 with
              | [] => []
              | b2 :: r3 =>
                  if utf8Cont b2 then
                    match r3 with
                    | [] => []
                    | b3 :: r4 =>
                        if utf8Cont b3 then
                          Char.ofNat ((b - 0xF0) * 0x40000 + (b1 - 0x80) * 0x1000 +
                              (b2 - 0x80) * 0x40 + (b3 - 0x80)) :: utf8DecodeIgnore r4
                        else utf8DecodeIgnore (b3 :: r4)
                  else utf8DecodeIgnore (b2 :: r3)
            else utf8DecodeIgnore (b1 :: r2)
      else utf8DecodeIgnore rest
termination_by bs.length
decreasing_by all_goals (simp only [List.length_cons]; omega)

/-- `raw.decode("utf-8", "ignore")` as a `String`. -/
def pyDecodeUtf8Ignore (bs : List Nat) : String :=
  ⟨utf8DecodeIgnore bs⟩

/-- The `text` variable of the receive loop: text frames pass through,
binary frames are UTF-8-decoded with errors ignored
(`ws_client.py` lines 133-137). -/
def frameText : Frame → String
  | .text s => s
  | .binary bs => pyDecodeUtf8Ignore bs

/-! ### Client state and the receive/supervisor step -/

/-- The mutable fields of `K1CClient` the claims are about:
`_state` (MergedState), `_connected_once` (latched event), `_ws_ready`
(resettable readiness event), `_last_rx` (monotonic receive timestamp),
the loop-local `backoff` value, and `_stop`. -/
structure ClientState where
  state : Dict
  connectedOnce : Bool
  wsReady : Bool
  last_rx : ℚ
  backoff : ℚ
  stopFlag : Bool

/-- State at construction (`__init__`) and loop entry: empty MergedState,
no events set, `_last_rx = 0.0`, `backoff = RETRY_MIN_BACKOFF`. -/
def initState (minB : ℚ) : ClientState :=
  { state := [], connectedOnce := false, wsReady := false,
    last_rx := 0, backoff := minB, stopFlag := false }

/-- Externally observable effects of a step: attempted transport writes,
snapshots handed to the observer callback, whether each callback invocation
raised (and was caught and logged), and computed backoff delays. -/
structure Trace where
  sends : List String := []
  cbSnaps : List Dict := []
  cbLogged : List Bool := []
  delays : List ℚ := []

/-- Concatenation of traces of consecutive steps. -/
def Trace.append (t u : Trace) : Trace :=
  { sends := t.sends ++ u.sends, cbSnaps := t.cbSnaps ++ u.cbSnaps,
    cbLogged := t.cbLogged ++ u.cbLogged, delays := t.delays ++ u.delays }

/-- `payload.get("ModeCode") == "heart_beat"` on a parsed mapping
(`ws_client.py` line 151): only a string value compares equal. -/
def isHeartbeat (fs : Dict) : Bool :=
  match dictGet fs "ModeCode" with
  | some (.str s) => s = "heart_beat"
  | _ => false

/-- How the receive loop classifies one inbound frame. -/
inductive Classified where
  | ignore
  | heartbeat
  | update (fs : Dict)

/-- Classification of one frame, following the loop body order
(`ws_client.py` lines 139-167): the literal `"ok"` fast-path, then JSON
parsing (failure ignored), then the `ModeCode == "heart_beat"` test on
mappings; any other mapping is a state update; non-mapping payloads are
logged and dropped. -/
def classify (jp : String → Option JVal) (f : Frame) : Classified :=
  let text := frameText f
  if text = "ok" then .ignore
  else
    match jp text with
    | none => .ignore
    | some (.obj fs) => if isHeartbeat fs then .heartbeat else .update fs
    | some _ => .ignore

/-- One iteration of `async for raw in ws` (`ws_client.py` lines 131-167):
stamp `_last_rx`, classify, then either do nothing, attempt the literal
`"ok"` heartbeat ack (send failures are swallowed, so the trace records the
attempt), or merge the coerced payload into `_state` and invoke the observer
with a snapshot (`dict(self._state)`), catching and logging its exceptions. -/
def handleFrame (jp : String → Option JVal) (cbT : Dict → Bool) (now : ℚ)
    (f : Frame) (c : ClientState) : ClientState × Trace :=
  let c1 := { c with last_rx := now }
  match classify jp f with
  | .ignore => (c1, {})
  | .heartbeat => (c1, { sends := ["ok"] })
  | .update fs =>
      let merged := coerce_numbers fs
      let st := dictUpdate c1.state merged
      ({ c1 with state := st }, { cbSnaps := [st], cbLogged := [cbT st] })

/-- Scheduler-level events of one client across its lifetime.  `connect` is
a successful `websockets.connect` (lines 119-125); `frame` is one inbound
frame at monotonic time `now`; `disconnect` covers both a failed connection
attempt and the loss of a live connection — either way the `finally` block
runs and the backoff advance with jitter draw `j` follows (lines 171-190);
`stopReq`/`startReq` are the `stop()`/`start()` effects on the flags
modelled here. -/
inductive Ev where
  | connect (now : ℚ)
  | frame (f : Frame) (now : ℚ)
  | disconnect (j : ℚ)
  | stopReq
  | startReq

/-- Effect of one event on the client state, with its trace.
On `connect`: set `_ws_ready`, latch `_connected_once`, reset `backoff` to
`RETRY_MIN_BACKOFF`, stamp `_last_rx` (lines 119-125).
On `disconnect`: clear `_ws_ready` (line 181), compute
`sleep_for = min(backoff * (1.8 + jitter), RETRY_MAX_BACKOFF)` and
`backoff = min(sleep_for, RETRY_MAX_BACKOFF)` (lines 184-190).
`stop()` sets `_stop` and never touches `_connected_once` (lines 71-88);
`start()` clears `_stop` (lines 65-69). -/
def stepEv (jp : String → Option JVal) (cbT : Dict → Bool) (minB maxB : ℚ)
    (c : ClientState) : Ev → ClientState × Trace
  | .connect now =>
      ({ c with wsReady := true, connectedOnce := true, backoff := minB, last_rx := now }, {})
  | .frame f now => handleFrame jp cbT now f c
  | .disconnect j =>
      let d := min (c.backoff * (18 / 10 + j)) maxB
      ({ c with wsReady := false, backoff := min d maxB }, { delays := [d] })
  | .stopReq => ({ c with stopFlag := true }, {})
  | .startReq => ({ c with stopFlag := false }, {})

/-- Run of the client over a sequence of events, accumulating the trace. -/
def runEvents (jp : String → Option JVal) (cbT : Dict → Bool) (minB maxB : ℚ)
    (c : ClientState) : List Ev → ClientState × Trace
  | [] => (c, {})
  | e :: es =>
      let p := stepEv jp cbT minB maxB c e
      let q := runEvents jp cbT minB maxB p.1 es
      (q.1, p.2.append q.2)

/-- The coerced mappings of the state-update frames among a run's events,
in arrival order. -/
def updatesOf (jp : String → Option JVal) : List Ev → List Dict
  | [] => []
  | .frame f _ :: es =>
      (match classify jp f with
       | .update fs => [coerce_numbers fs]
       | _ => []) ++ updatesOf jp es
  | _ :: es => updatesOf jp es

/-- Key-wise last-writer-wins merge of a sequence of update mappings:
the value of `k` is the one from the last mapping that binds `k`. -/
def lwwGet (us : List Dict) (k : String) : Option JVal :=
  us.foldl (fun acc u =>
    match lastBind u k with
    | some v => some v
    | none => acc) none

/-! ### The public send path and health accessors -/

/-- Failures `_send_json` can raise: `RuntimeError("WebSocket not
connected")` when `_ws` is `None` (line 277), or a transport error from
`ws.send` (abstracted by an identifier). -/
inductive SendErr where
  | notConnected
  | sendFailed (code : Nat)

/-- Outcome of `send_set_retry`: normal return, the
`RuntimeError(f"printer link not available after \x7bwait_reconnect\x7ds")`
raised `from first_exc` when the reconnect wait times out (the spec's
`LinkUnavailableError` with the original failure as context), or an
exception propagating to the caller unchanged. -/
inductive RetryResult where
  | success
  | linkUnavailable (waitReconnect : ℚ) (cause : SendErr)
  | raised (e : SendErr)

/-- Observable outcome of one `send_set_retry` call: its result, how many
physical `_send_json` attempts ran, and whether `wait_connected` was
entered. -/
structure RetryOut where
  result : RetryResult
  attempts : Nat
  waited : Bool

/-- `send_set_retry` (`ws_client.py` lines 257-271): one `_send_json`
attempt; on any exception, `wait_connected(wait_reconnect)`; on timeout
raise the link-unavailable error from the first exception; otherwise
exactly one more `_send_json` attempt whose outcome is returned as-is.
The outcomes of the two possible physical attempts and of the bounded wait
are inputs, since they depend on the transport. -/
def send_set_retry (waitReconnect : ℚ) (first : Except SendErr Unit)
    (waitOk : Bool) (second : Except SendErr Unit) : RetryOut :=
  match first with
  | .ok _ => { result := .success, attempts := 1, waited := false }
  | .error e1 =>
      if waitOk then
        match second with
        | .ok _ => { result := .success, attempts := 2, waited := true }
        | .error e2 => { result := .raised e2, attempts := 2, waited := true }
      else { result := .linkUnavailable waitReconnect e1, attempts := 1, waited := true }

/-- `wait_first_connect` (lines 90-95): `asyncio.wait_for` on the latched
`_connected_once` event — returns `True` at once when the latch is already
set, and otherwise `True` exactly when the latch becomes set during the
wait (`setDuringWait`). -/
def wait_first_connect (c : ClientState) (setDuringWait : Bool) : Bool :=
  c.connectedOnce || setDuringWait

/-- `last_rx_monotonic` (lines 281-282): returns `_last_rx`. -/
def last_rx_monotonic (c : ClientState) : ℚ :=
  c.last_rx

/-- Snapshots handed to the observer along a run: the merged state after
each update, in order. -/
def snapshotsFrom (d : Dict) : List Dict → List Dict
  | [] => []
  | u :: us => dictUpdate d u :: snapshotsFrom (dictUpdate d u) us

/-- Does the event list contain a successful connection? -/
def hasConnect : List Ev → Bool
  | [] => false
  | .connect _ :: _ => true
  | _ :: es => hasConnect es

/-- Well-formedness of a schedule: frames can only arrive while a
connection is live (first argument: is the connection live now?). -/
def framesRequireConn : Bool → List Ev → Bool
  | _, [] => true
  | _, .connect _ :: es => framesRequireConn true es
  | _, .disconnect _ :: es => framesRequireConn false es
  | r, .frame _ _ :: es => r && framesRequireConn r es
  | r, .stopReq :: es => framesRequireConn r es
  | r, .startReq :: es => framesRequireConn r es

/-- The sequence of backoff delays produced by consecutive failures with
given jitter draws, starting from backoff value `b`. -/
def ddelays (maxB : ℚ) : ℚ → List ℚ → List ℚ
  | _, [] => []
  | b, j :: js =>
      min (b * (18 / 10 + j)) maxB
        :: ddelays maxB (min (min (b * (18 / 10 + j)) maxB) maxB) js

/-! ### Lemmas about the dict model -/

theorem dictGet_cons (kv : String × JVal) (d : Dict) (k : String) :
    dictGet (kv :: d) k = if kv.1 = k then some kv.2 else dictGet d k := by
  by_cases h : kv.1 = k
  · simp [dictGet, List.find?_cons_of_pos, h]
  · simp [dictGet, List.find?_cons_of_neg, h]

theorem dictGet_dictInsert (d : Dict) (k k' : String) (v : JVal) :
    dictGet (dictInsert d k v) k' = if k' = k then some v else dictGet d k' := by
  induction d with
  | nil =>
      by_cases h : k' = k
      · simp [dictInsert, dictGet_cons, h]
      · simp [dictInsert, dictGet_cons, h, Ne.symm h, dictGet]
  | cons kv rest ih =>
      by_cases hk : kv.1 = k
      · by_cases h : k' = k
        · simp [dictInsert, hk, dictGet_cons, h]
        · simp [dictInsert, hk, dictGet_cons, h, Ne.symm h]
      · by_cases h : kv.1 = k'
        · have h3 : ¬k' = k := fun hh => hk (h.trans hh)
          simp [dictInsert, hk, dictGet_cons, h, h3, ih]
        · simp [dictInsert, hk, dictGet_cons, h, ih]

theorem lastBind_foldl (u : Dict) (k : String) : ∀ init : Option JVal,
    u.foldl (fun acc kv => if kv.1 = k then some kv.2 else acc) init
      = (lastBind u k).or init := by
  induction u with
  | nil => intro init; rfl
  | cons kv u ih =>
      intro init
      rw [List.foldl_cons, ih]
      have hl : lastBind (kv :: u) k
          = (lastBind u k).or (if kv.1 = k then some kv.2 else none) := by
        unfold lastBind
        rw [List.foldl_cons]
        exact ih _
      rw [hl]
      cases lastBind u k with
      | some v => simp [Option.or_some]
      | none =>
          rw [Option.none_or, Option.none_or]
          by_cases h : kv.1 = k
          · rw [if_pos h, if_pos h, Option.or_some]
          · rw [if_neg h, if_neg h, Option.none_or]

theorem lastBind_cons (kv : String × JVal) (u : Dict) (k : String) :
    lastBind (kv :: u) k = (lastBind u k).or (if kv.1 = k then some kv.2 else none) := by
  unfold lastBind
  rw [List.foldl_cons]
  exact lastBind_foldl u k _

theorem dictGet_dictUpdate (d u : Dict) (k : String) :
    dictGet (dictUpdate d u) k = (lastBind u k).or (dictGet d k) := by
  induction u generalizing d with
  | nil => rfl
  | cons kv u ih =>
      have h1 : dictUpdate d (kv :: u) = dictUpdate (dictInsert d kv.1 kv.2) u := by
        unfold dictUpdate
        rw [List.foldl_cons]
      rw [h1, ih, dictGet_dictInsert, lastBind_cons]
      cases lastBind u k with
      | some v => simp [Option.or_some]
      | none =>
          rw [Option.none_or, Option.none_or]
          by_cases h : kv.1 = k
          · rw [if_pos h.symm, if_pos h, Option.or_some]
          · rw [if_neg (fun hh => h hh.symm), if_neg h, Option.none_or]

theorem lwwGet_foldl (us : List Dict) (k : String) : ∀ init : Option JVal,
    us.foldl (fun acc u =>
        match lastBind u k with
        | some v => some v
        | none => acc) init
      = (lwwGet us k).or init := by
  induction us with
  | nil => intro init; rfl
  | cons u us ih =>
      intro init
      rw [List.foldl_cons, ih]
      have hl : lwwGet (u :: us) k
          = (lwwGet us k).or (match lastBind u k with
              | some v => some v
              | none => none) := by
        unfold lwwGet
        rw [List.foldl_cons]
        exact ih _
      rw [hl]
      cases lwwGet us k with
      | some v => simp [Option.or_some]
      | none =>
          rw [Option.none_or, Option.none_or]
          cases lastBind u k <;> rfl

theorem lwwGet_cons (u : Dict) (us : List Dict) (k : String) :
    lwwGet (u :: us) k = (lwwGet us k).or (lastBind u k) := by
  have hl : lwwGet (u :: us) k
      = (lwwGet us k).or (match lastBind u k with
          | some v => some v
          | none => none) := by
    unfold lwwGet
    rw [List.foldl_cons]
    exact lwwGet_foldl us k _
  rw [hl]
  cases lastBind u k <;> rfl

theorem dictGet_foldl_dictUpdate (d : Dict) (us : List Dict) (k : String) :
    dictGet (us.foldl dictUpdate d) k = (lwwGet us k).or (dictGet d k) := by
  induction us generalizing d with
  | nil => rfl
  | cons u us ih =>
      rw [List.foldl_cons, ih, dictGet_dictUpdate, lwwGet_cons]
      cases lwwGet us k with
      | some v => simp [Option.or_some]
      | none => rw [Option.none_or, Option.none_or]

/-! ### Lemmas about one frame step -/

theorem handleFrame_ignore (jp : String → Option JVal) (cbT : Dict → Bool) (now : ℚ)
    (f : Frame) (c : ClientState) (h : classify jp f = .ignore) :
    handleFrame jp cbT now f c = ({ c with last_rx := now }, {}) := by
  simp [handleFrame, h]

theorem handleFrame_heartbeat (jp : String → Option JVal) (cbT : Dict → Bool) (now : ℚ)
    (f : Frame) (c : ClientState) (h : classify jp f = .heartbeat) :
    handleFrame jp cbT now f c = ({ c with last_rx := now }, { sends := ["ok"] }) := by
  simp [handleFrame, h]

theorem handleFrame_update (jp : String → Option JVal) (cbT : Dict → Bool) (now : ℚ)
    (f : Frame) (c : ClientState) (fs : Dict) (h : classify jp f = .update fs) :
    handleFrame jp cbT now f c
      = ({ c with
            last_rx := now,
            state := dictUpdate c.state (coerce_numbers fs) },
         { cbSnaps := [dictUpdate c.state (coerce_numbers fs)],
           cbLogged := [cbT (dictUpdate c.state (coerce_numbers fs))] }) := by
  simp [handleFrame, h]

/-! ### Lemmas about event runs -/

theorem runEvents_cons (jp : String → Option JVal) (cbT : Dict → Bool) (minB maxB : ℚ)
    (c : ClientState) (e : Ev) (es : List Ev) :
    runEvents jp cbT minB maxB c (e :: es)
      = ((runEvents jp cbT minB maxB (stepEv jp cbT minB maxB c e).1 es).1,
         (stepEv jp cbT minB maxB c e).2.append
           (runEvents jp cbT minB maxB (stepEv jp cbT minB maxB c e).1 es).2) := rfl

theorem runEvents_state (jp : String → Option JVal) (cbT : Dict → Bool) (minB maxB : ℚ)
    (evs : List Ev) : ∀ c : ClientState,
    (runEvents jp cbT minB maxB c evs).1.state
      = (updatesOf jp evs).foldl dictUpdate c.state := by
  induction evs with
  | nil => intro c; rfl
  | cons e es ih =>
      intro c
      cases e with
      | connect now => exact ih _
      | disconnect j => exact ih _
      | stopReq => exact ih _
      | startReq => exact ih _
      | frame f now =>
          rcases hcl : classify jp f with _ | _ | fs
          · have hs : (stepEv jp cbT minB maxB c (.frame f now)).1
                = { c with last_rx := now } :=
              congrArg Prod.fst (handleFrame_ignore jp cbT now f c hcl)
            have := ih (stepEv jp cbT minB maxB c (.frame f now)).1
            rw [runEvents_cons, this, hs]
            simp [updatesOf, hcl]
          · have hs : (stepEv jp cbT minB maxB c (.frame f now)).1
                = { c with last_rx := now } :=
              congrArg Prod.fst (handleFrame_heartbeat jp cbT now f c hcl)
            have := ih (stepEv jp cbT minB maxB c (.frame f now)).1
            rw [runEvents_cons, this, hs]
            simp [updatesOf, hcl]
          · have hs : (stepEv jp cbT minB maxB c (.frame f now)).1
                = { c with
                    last_rx := now,
                    state := dictUpdate c.state (coerce_numbers fs) } :=
              congrArg Prod.fst (handleFrame_update jp cbT now f c fs hcl)
            have := ih (stepEv jp cbT minB maxB c (.frame f now)).1
            rw [runEvents_cons, this, hs]
            simp [updatesOf, hcl]

theorem runEvents_cbSnaps (jp : String → Option JVal) (cbT : Dict → Bool) (minB maxB : ℚ)
    (evs : List Ev) : ∀ c : ClientState,
    (runEvents jp cbT minB maxB c evs).2.cbSnaps
      = snapshotsFrom c.state (updatesOf jp evs) := by
  induction evs with
  | nil => intro c; rfl
  | cons e es ih =>
      intro c
      cases e with
      | connect now => exact ih _
      | disconnect j => exact ih _
      | stopReq => exact ih _
      | startReq => exact ih _
      | frame f now =>
          rcases hcl : classify jp f with _ | _ | fs
          · have hs := handleFrame_ignore jp cbT now f c hcl
            rw [runEvents_cons]
            show ((stepEv jp cbT minB maxB c (.frame f now)).2.append _).cbSnaps = _
            rw [show (stepEv jp cbT minB maxB c (.frame f now)) = _ from hs]
            show (runEvents jp cbT minB maxB { c with last_rx := now } es).2.cbSnaps = _
            rw [ih _]
            simp [updatesOf, hcl]
          · have hs := handleFrame_heartbeat jp cbT now f c hcl
            rw [runEvents_cons]
            show ((stepEv jp cbT minB maxB c (.frame f now)).2.append _).cbSnaps = _
            rw [show (stepEv jp cbT minB maxB c (.frame f now)) = _ from hs]
            show (runEvents jp cbT minB maxB { c with last_rx := now } es).2.cbSnaps = _
            rw [ih _]
            simp [updatesOf, hcl]
          · have hs := handleFrame_update jp cbT now f c fs hcl
            rw [runEvents_cons]
            show ((stepEv jp cbT minB maxB c (.frame f now)).2.append _).cbSnaps = _
            rw [show (stepEv jp cbT minB maxB c (.frame f now)) = _ from hs]
            show dictUpdate c.state (coerce_numbers fs)
                :: (runEvents jp cbT minB maxB
                      { c with
                        last_rx := now,
                        state := dictUpdate c.state (coerce_numbers fs) } es).2.cbSnaps = _
            rw [ih _]
            simp [updatesOf, hcl, snapshotsFrom]

theorem snapshotsFrom_getLast (us : List Dict) : ∀ d : Dict,
    (snapshotsFrom d us).getLast?
      = if us.isEmpty then none else some (us.foldl dictUpdate d) := by
  induction us with
  | nil => intro d; rfl
  | cons u us ih =>
      intro d
      cases us with
      | nil => rfl
      | cons u2 us2 =>
          have h2 : snapshotsFrom (dictUpdate d u) (u2 :: us2)
              = dictUpdate (dictUpdate d u) u2
                :: snapshotsFrom (dictUpdate (dictUpdate d u) u2) us2 := rfl
          rw [show snapshotsFrom d (u :: u2 :: us2)
              = dictUpdate d u :: snapshotsFrom (dictUpdate d u) (u2 :: us2) from rfl,
            h2, List.getLast?_cons_cons, ← h2, ih]
          rfl

theorem stepEv_connectedOnce (jp : String → Option JVal) (cbT : Dict → Bool)
    (minB maxB : ℚ) (c : ClientState) (e : Ev) (h : c.connectedOnce = true) :
    (stepEv jp cbT minB maxB c e).1.connectedOnce = true := by
  cases e with
  | connect now => rfl
  | disconnect j => exact h
  | stopReq => exact h
  | startReq => exact h
  | frame f now => rcases hcl : classify jp f with _ | _ | fs <;>
      simp [stepEv, handleFrame, hcl, h]

theorem runEvents_connectedOnce (jp : String → Option JVal) (cbT : Dict → Bool)
    (minB maxB : ℚ) (evs : List Ev) : ∀ c : ClientState, c.connectedOnce = true →
    (runEvents jp cbT minB maxB c evs).1.connectedOnce = true := by
  induction evs with
  | nil => intro c h; exact h
  | cons e es ih =>
      intro c h
      exact ih _ (stepEv_connectedOnce jp cbT minB maxB c e h)

theorem runEvents_cb_independent (jp : String → Option JVal) (cbT cbT' : Dict → Bool)
    (minB maxB : ℚ) (evs : List Ev) : ∀ c : ClientState,
    (runEvents jp cbT minB maxB c evs).1 = (runEvents jp cbT' minB maxB c evs).1 ∧
    (runEvents jp cbT minB maxB c evs).2.cbSnaps
      = (runEvents jp cbT' minB maxB c evs).2.cbSnaps := by
  induction evs with
  | nil => intro c; exact ⟨rfl, rfl⟩
  | cons e es ih =>
      intro c
      have hstep : (stepEv jp cbT minB maxB c e).1 = (stepEv jp cbT' minB maxB c e).1 ∧
          (stepEv jp cbT minB maxB c e).2.cbSnaps
            = (stepEv jp cbT' minB maxB c e).2.cbSnaps := by
        cases e with
        | connect now => exact ⟨rfl, rfl⟩
        | disconnect j => exact ⟨rfl, rfl⟩
        | stopReq => exact ⟨rfl, rfl⟩
        | startReq => exact ⟨rfl, rfl⟩
        | frame f now => rcases hcl : classify jp f with _ | _ | fs <;>
            simp [stepEv, handleFrame, hcl]
      obtain ⟨hs1, hs2⟩ := hstep
      obtain ⟨i1, i2⟩ := ih (stepEv jp cbT' minB maxB c e).1
      constructor
      · show (runEvents jp cbT minB maxB (stepEv jp cbT minB maxB c e).1 es).1 = _
        rw [hs1, i1]
        rfl
      · show (stepEv jp cbT minB maxB c e).2.cbSnaps
            ++ (runEvents jp cbT minB maxB (stepEv jp cbT minB maxB c e).1 es).2.cbSnaps = _
        rw [hs1, hs2, i2]
        rfl

theorem runEvents_last_rx_no_connect (jp : String → Option JVal) (cbT : Dict → Bool)
    (minB maxB : ℚ) (evs : List Ev) : ∀ c : ClientState, c.wsReady = false →
    hasConnect evs = false → framesRequireConn false evs = true →
    (runEvents jp cbT minB maxB c evs).1.last_rx = c.last_rx ∧
    (runEvents jp cbT minB maxB c evs).1.wsReady = false := by
  induction evs with
  | nil => intro c h1 h2 h3; exact ⟨rfl, h1⟩
  | cons e es ih =>
      intro c h1 h2 h3
      cases e with
      | connect now => simp [hasConnect] at h2
      | frame f now => simp [framesRequireConn] at h3
      | disconnect j => exact ih _ rfl h2 h3
      | stopReq => exact ih _ h1 h2 h3
      | startReq => exact ih _ h1 h2 h3

theorem runEvents_disconnect_delays (jp : String → Option JVal) (cbT : Dict → Bool)
    (minB maxB : ℚ) (js : List ℚ) : ∀ c : ClientState,
    (runEvents jp cbT minB maxB c (js.map Ev.disconnect)).2.delays
      = ddelays maxB c.backoff js := by
  induction js with
  | nil => intro c; rfl
  | cons j js ih =>
      intro c
      show min (c.backoff * (18 / 10 + j)) maxB
          :: (runEvents jp cbT minB maxB _ (js.map Ev.disconnect)).2.delays = _
      rw [ih _]
      rfl

theorem ddelays_sorted_bounded (maxB : ℚ) (js : List ℚ) :
    ∀ b : ℚ, 0 ≤ b → b ≤ maxB → (∀ j ∈ js, 0 ≤ j) →
    List.Chain' (fun x y => x ≤ y) (ddelays maxB b js) ∧
    ∀ d ∈ ddelays maxB b js, b ≤ d ∧ d ≤ maxB := by
  induction js with
  | nil =>
      intro b hb hbm hj
      exact ⟨List.chain'_nil, by simp [ddelays]⟩
  | cons j js ih =>
      intro b hb hbm hj
      have hj0 : 0 ≤ j := hj j (List.mem_cons_self j js)
      have hfac : (1 : ℚ) ≤ 18 / 10 + j := by linarith
      have hbd : b ≤ b * (18 / 10 + j) := le_mul_of_one_le_right hb hfac
      have hd_le : min (b * (18 / 10 + j)) maxB ≤ maxB := min_le_right _ _
      have hd_ge : b ≤ min (b * (18 / 10 + j)) maxB := le_min hbd hbm
      have hd0 : (0 : ℚ) ≤ min (b * (18 / 10 + j)) maxB := le_trans hb hd_ge
      have hmin : min (min (b * (18 / 10 + j)) maxB) maxB
          = min (b * (18 / 10 + j)) maxB := min_eq_left hd_le
      have hb' : (0 : ℚ) ≤ min (min (b * (18 / 10 + j)) maxB) maxB := by
        rw [hmin]; exact hd0
      have hbm' : min (min (b * (18 / 10 + j)) maxB) maxB ≤ maxB := by
        rw [hmin]; exact hd_le
      obtain ⟨ch, bd⟩ := ih (min (min (b * (18 / 10 + j)) maxB) maxB)
        hb' hbm' (fun x hx => hj x (List.mem_cons_of_mem j hx))
      constructor
      · rw [show ddelays maxB b (j :: js)
            = min (b * (18 / 10 + j)) maxB
              :: ddelays maxB (min (min (b * (18 / 10 + j)) maxB) maxB) js from rfl,
          List.chain'_cons']
        refine ⟨?_, ch⟩
        intro y hy
        have hmem : y ∈ ddelays maxB (min (min (b * (18 / 10 + j)) maxB) maxB) js :=
          List.mem_of_mem_head? hy
        have := (bd y hmem).1
        rw [hmin] at this
        exact this
      · intro x hx
        rw [show ddelays maxB b (j :: js)
            = min (b * (18 / 10 + j)) maxB
              :: ddelays maxB (min (min (b * (18 / 10 + j)) maxB) maxB) js from rfl] at hx
        rcases List.mem_cons.mp hx with h | h
        · exact h ▸ ⟨hd_ge, hd_le⟩
        · obtain ⟨hx1, hx2⟩ := bd x h
          rw [hmin] at hx1
          exact ⟨le_trans hd_ge hx1, hx2⟩

/-! ### The claims -/

/-- Claim C1: for every sequence of events of one client (frames, connects,
disconnects, stop/start in any arrangement), the MergedState after
processing them all is the key-wise last-writer-wins merge of the decoded,
number-coerced update mappings in arrival order, and the last snapshot
handed to the observer callback equals that merged state; connects and
disconnects never clear or reset it. -/
theorem claim_C1_lww_merge (jp : String → Option JVal) (cbT : Dict → Bool)
    (minB maxB : ℚ) (evs : List Ev) (k : String) :
    dictGet ((runEvents jp cbT minB maxB (initState minB) evs).1.state) k
      = lwwGet (updatesOf jp evs) k ∧
    (runEvents jp cbT minB maxB (initState minB) evs).2.cbSnaps.getLast?
      = if (updatesOf jp evs).isEmpty then none
        else some ((runEvents jp cbT minB maxB (initState minB) evs).1.state) := by
  constructor
  · rw [runEvents_state, dictGet_foldl_dictUpdate]
    show (lwwGet (updatesOf jp evs) k).or (dictGet [] k) = _
    cases lwwGet (updatesOf jp evs) k <;> rfl
  · rw [runEvents_cbSnaps, snapshotsFrom_getLast, runEvents_state]

/-- Claim C2: `_coerce_numbers` converts every string value that parses as a
decimal number — to a float (exact rational here) when it contains `'.'`,
otherwise to an integer; failed conversions and non-string values are left
unchanged; e.g. `"23.5"` becomes `23.5`, `"120"` becomes `120`, `"idle"`
stays `"idle"`. -/
theorem claim_C2_numeric_coercion (d : Dict) (s : String) (v : JVal) :
    (s.toList.contains '.' = true →
      (∀ q : ℚ, pyFloat? s = some q → coerceVal (.str s) = .float q) ∧
      (pyFloat? s = none → coerceVal (.str s) = .str s)) ∧
    (s.toList.contains '.' = false →
      (∀ n : Int, pyInt? s = some n → coerceVal (.str s) = .int n) ∧
      (pyInt? s = none → coerceVal (.str s) = .str s)) ∧
    ((∀ t : String, v ≠ .str t) → coerceVal v = v) ∧
    coerce_numbers d = d.map (fun kv => (kv.1, coerceVal kv.2)) ∧
    coerceVal (.str "23.5") = .float (47 / 2) ∧
    coerceVal (.str "120") = .int 120 ∧
    coerceVal (.str "idle") = .str "idle" := by
  have hcv : coerceVal (.str s)
      = if s.toList.contains '.' = true then
          (match pyFloat? s with
           | some q => JVal.float q
           | none => JVal.str s)
        else
          (match pyInt? s with
           | some n => JVal.int n
           | none => JVal.str s) := rfl
  refine ⟨?_, ?_, ?_, rfl, ?_, rfl, rfl⟩
  · intro h
    constructor
    · intro q hq
      rw [hcv, if_pos h, hq]
    · intro hq
      rw [hcv, if_pos h, hq]
  · intro h
    constructor
    · intro n hn
      rw [hcv, if_neg (by rw [h]; exact Bool.false_ne_true), hn]
    · intro hn
      rw [hcv, if_neg (by rw [h]; exact Bool.false_ne_true), hn]
  · intro hv
    rcases v with t | n | q | b | _ | xs | fl
    · exact absurd rfl (hv t)
    · rfl
    · rfl
    · rfl
    · rfl
    · rfl
    · rfl
  · have h1 : pyFloat? "23.5" = some ((23 : ℚ) + (5 : ℚ) / (10 : ℚ) ^ (1 : Nat)) := rfl
    have h2 : ((23 : ℚ) + (5 : ℚ) / (10 : ℚ) ^ (1 : Nat)) = 47 / 2 := by norm_num
    have h3 : ("23.5".toList.contains '.') = true := by decide
    simp [coerceVal, h3, h1]
    norm_num

/-- Witness for C2: `"idle"` contains no dot, its `int` conversion fails,
and the value is left unchanged. -/
theorem claim_C2_numeric_coercion_witness :
    coerceVal (.str "idle") = .str "idle" :=
  ((claim_C2_numeric_coercion [] "idle" .null).2.1 (by decide)).2 rfl

/-- Claim C3: `send_set_retry` performs at most two physical send attempts
in every execution; on a first failure with a wait that times out, it fails
with the link-unavailable error carrying the original failure; with a
successful wait it attempts exactly one more send. -/
theorem claim_C3_retry_at_most_two (w : ℚ) (first second : Except SendErr Unit)
    (waitOk : Bool) (e1 : SendErr) :
    (send_set_retry w first waitOk second).attempts ≤ 2 ∧
    send_set_retry w (.error e1) false second
      = { result := .linkUnavailable w e1, attempts := 1, waited := true } ∧
    send_set_retry w (.error e1) true (.ok ())
      = { result := .success, attempts := 2, waited := true } ∧
    send_set_retry w (.ok ()) waitOk second
      = { result := .success, attempts := 1, waited := false } := by
  refine ⟨?_, rfl, rfl, rfl⟩
  rcases first with e | ⟨⟩
  · cases waitOk
    · show (1 : Nat) ≤ 2
      decide
    · rcases second with e2 | ⟨⟩
      · show (2 : Nat) ≤ 2
        decide
      · show (2 : Nat) ≤ 2
        decide
  · show (1 : Nat) ≤ 2
    decide

/-- Claim C4: the next backoff delay after any failed attempt or disconnect
is `min(current * (1.8 + jitter), maxBackoff)`; over a run of consecutive
failures the delays are monotonically non-decreasing and never exceed
`maxBackoff`; a successful connection resets the backoff to `minBackoff`. -/
theorem claim_C4_backoff (jp : String → Option JVal) (cbT : Dict → Bool)
    (minB maxB j now : ℚ) (c : ClientState) (js : List ℚ)
    (hb : 0 ≤ c.backoff) (hbm : c.backoff ≤ maxB)
    (hjs : ∀ x ∈ js, 0 ≤ x ∧ x < 2 / 5) :
    (stepEv jp cbT minB maxB c (.disconnect j)).2.delays
      = [min (c.backoff * (18 / 10 + j)) maxB] ∧
    (stepEv jp cbT minB maxB c (.disconnect j)).1.backoff
      = min (min (c.backoff * (18 / 10 + j)) maxB) maxB ∧
    (stepEv jp cbT minB maxB c (.connect now)).1.backoff = minB ∧
    List.Chain' (fun x y => x ≤ y)
      ((runEvents jp cbT minB maxB c (js.map Ev.disconnect)).2.delays) ∧
    (∀ d ∈ (runEvents jp cbT minB maxB c (js.map Ev.disconnect)).2.delays, d ≤ maxB) := by
  have h := ddelays_sorted_bounded maxB js c.backoff hb hbm (fun x hx => (hjs x hx).1)
  refine ⟨rfl, rfl, rfl, ?_, ?_⟩
  · rw [runEvents_disconnect_delays]
    exact h.1
  · intro d hd
    rw [runEvents_disconnect_delays] at hd
    exact (h.2 d hd).2

/-- Witness for C4: a concrete two-failure run with zero jitter, minimum
backoff 1 and maximum 60, whose delay sequence is non-decreasing. -/
theorem claim_C4_backoff_witness :
    List.Chain' (fun x y => x ≤ y)
      ((runEvents (fun _ => none) (fun _ => false) 1 60 (initState 1)
        ([0, 0].map Ev.disconnect)).2.delays) :=
  (claim_C4_backoff (fun _ => none) (fun _ => false) 1 60 0 0 (initState 1) [0, 0]
    (by decide) (by decide)
    (fun x hx => by
      have hx0 : x = 0 := by
        rcases List.mem_cons.mp hx with h | h
        · exact h
        · rcases List.mem_cons.mp h with h2 | h2
          · exact h2
          · exact absurd h2 (List.not_mem_nil x)
      rw [hx0]
      exact ⟨le_refl 0, div_pos (by decide) (by decide)⟩)).2.2.2.1

/-- Claim C5: a frame parsing to a mapping whose `ModeCode` equals
`"heart_beat"` produces exactly one attempted outbound literal `"ok"` frame
(bare text), leaves MergedState unchanged and does not invoke the observer
callback.  (The hypothesis `jp "ok" = none` records that the literal `"ok"`
is not valid JSON, so the fast path and this case cannot overlap.) -/
theorem claim_C5_heartbeat_ack (jp : String → Option JVal) (cbT : Dict → Bool)
    (now : ℚ) (c : ClientState) (s : String) (fs : Dict)
    (hok : jp "ok" = none) (hs : jp s = some (.obj fs))
    (hhb : dictGet fs "ModeCode" = some (.str "heart_beat")) :
    handleFrame jp cbT now (.text s) c
      = ({ c with last_rx := now }, { sends := ["ok"] }) := by
  have hne : ¬s = "ok" := by
    intro h
    rw [h, hok] at hs
    cases hs
  have hcl : classify jp (.text s) = .heartbeat := by
    simp [classify, frameText, hne, hs, isHeartbeat, hhb]
  exact handleFrame_heartbeat jp cbT now _ c hcl

/-- Witness for C5: a concrete heartbeat frame is acknowledged with a bare
`"ok"` and nothing else happens. -/
theorem claim_C5_heartbeat_ack_witness :
    handleFrame
      (fun t => if t = "hb" then some (.obj [("ModeCode", JVal.str "heart_beat")]) else none)
      (fun _ => false) 7 (.text "hb") (initState 1)
      = ({ initState 1 with last_rx := 7 }, { sends := ["ok"] }) :=
  claim_C5_heartbeat_ack _ _ 7 (initState 1) "hb" _ rfl rfl rfl

/-- Claim C6: observer-callback exceptions are caught and logged: the run's
final state and the snapshots delivered are independent of which callback
invocations raise, every subsequent frame is still processed, and the merge
of an update frame into MergedState happens before the callback and
persists (the caught exception is only logged in the trace). -/
theorem claim_C6_callback_exceptions (jp : String → Option JVal) (cbT cbT' : Dict → Bool)
    (minB maxB now : ℚ) (c : ClientState) (evs : List Ev) (f : Frame) (fs : Dict)
    (h : classify jp f = .update fs) :
    (runEvents jp cbT minB maxB c evs).1 = (runEvents jp cbT' minB maxB c evs).1 ∧
    (runEvents jp cbT minB maxB c evs).2.cbSnaps
      = (runEvents jp cbT' minB maxB c evs).2.cbSnaps ∧
    handleFrame jp cbT now f c
      = ({ c with
          last_rx := now,
          state := dictUpdate c.state (coerce_numbers fs) },
         { cbSnaps := [dictUpdate c.state (coerce_numbers fs)],
           cbLogged := [cbT (dictUpdate c.state (coerce_numbers fs))] }) := by
  obtain ⟨h1, h2⟩ := runEvents_cb_independent jp cbT cbT' minB maxB evs c
  exact ⟨h1, h2, handleFrame_update jp cbT now f c fs h⟩

/-- Witness for C6: a concrete update frame whose callback raises — the
merge persists and the caught exception is logged. -/
theorem claim_C6_callback_exceptions_witness :
    handleFrame (fun t => if t = "u" then some (.obj [("temp", JVal.str "1")]) else none)
      (fun _ => true) 3 (.text "u") (initState 1)
      = ({ initState 1 with
          last_rx := 3,
          state := [("temp", JVal.int 1)] },
         { cbSnaps := [[("temp", JVal.int 1)]], cbLogged := [true] }) :=
  (claim_C6_callback_exceptions
    (fun t => if t = "u" then some (.obj [("temp", JVal.str "1")]) else none)
    (fun _ => true) (fun _ => false) 1 1 3 (initState 1) [] (.text "u")
    [("temp", JVal.str "1")] rfl).2.2

/-- Claim C7: the connected-at-least-once latch is set by a successful
connection and preserved by every other event (disconnect, stop, start,
frames), so `wait_first_connect` keeps returning `true` after any further
run; the readiness signal is set on connect and cleared on disconnect. -/
theorem claim_C7_latch (jp : String → Option JVal) (cbT : Dict → Bool)
    (minB maxB now j : ℚ) (c : ClientState) (evs : List Ev) (b : Bool)
    (h : c.connectedOnce = true) :
    (stepEv jp cbT minB maxB c (.connect now)).1.connectedOnce = true ∧
    (stepEv jp cbT minB maxB c (.connect now)).1.wsReady = true ∧
    (stepEv jp cbT minB maxB c (.disconnect j)).1.wsReady = false ∧
    (stepEv jp cbT minB maxB c (.disconnect j)).1.connectedOnce = c.connectedOnce ∧
    (stepEv jp cbT minB maxB c .stopReq).1.connectedOnce = c.connectedOnce ∧
    (stepEv jp cbT minB maxB c .startReq).1.connectedOnce = c.connectedOnce ∧
    (runEvents jp cbT minB maxB c evs).1.connectedOnce = true ∧
    wait_first_connect (runEvents jp cbT minB maxB c evs).1 b = true := by
  have hr := runEvents_connectedOnce jp cbT minB maxB evs c h
  exact ⟨rfl, rfl, rfl, rfl, rfl, rfl, hr, by simp [wait_first_connect, hr]⟩

/-- Witness for C7: after connecting once, a disconnect and a stop request
leave the latch set and `wait_first_connect` still returns `true`. -/
theorem claim_C7_latch_witness :
    wait_first_connect
      ((runEvents (fun _ => none) (fun _ => false) 1 60
        { initState 1 with connectedOnce := true } [Ev.disconnect 0, Ev.stopReq]).1)
      false = true :=
  (claim_C7_latch (fun _ => none) (fun _ => false) 1 60 0 0
    { initState 1 with connectedOnce := true } [Ev.disconnect 0, Ev.stopReq] false
    rfl).2.2.2.2.2.2.2

/-- Claim C8: when the first send fails, the wait succeeds and the second
send also fails, the second exception propagates unchanged — it is not
wrapped in the link-unavailable error and no further attempt happens. -/
theorem claim_C8_second_failure_propagates (w : ℚ) (e1 e2 : SendErr) :
    send_set_retry w (.error e1) true (.error e2)
      = { result := .raised e2, attempts := 2, waited := true } ∧
    (∀ (w' : ℚ) (c' : SendErr),
      RetryResult.raised e2 ≠ RetryResult.linkUnavailable w' c') := by
  refine ⟨rfl, ?_⟩
  intro w' c' hc
  exact RetryResult.noConfusion hc

/-- Witness for C8: a concrete double failure — the second error is
returned as raised, after exactly two attempts. -/
theorem claim_C8_second_failure_propagates_witness :
    send_set_retry 6 (.error .notConnected) true (.error (.sendFailed 3))
      = { result := .raised (.sendFailed 3), attempts := 2, waited := true } :=
  (claim_C8_second_failure_propagates 6 .notConnected (.sendFailed 3)).1

/-- Claim C9: a binary frame is UTF-8-decoded with undecodable bytes
dropped and then handled exactly like the corresponding text frame; in
particular the bytes `6f 6b` decode to `"ok"` and the frame is discarded
with no state change and no callback. -/
theorem claim_C9_binary_frames (jp : String → Option JVal) (cbT : Dict → Bool)
    (now : ℚ) (bs : List Nat) (c : ClientState) :
    handleFrame jp cbT now (.binary bs) c
      = handleFrame jp cbT now (.text (pyDecodeUtf8Ignore bs)) c ∧
    pyDecodeUtf8Ignore [0x6f, 0x6b] = "ok" ∧
    handleFrame jp cbT now (.binary [0x6f, 0x6b]) c
      = ({ c with last_rx := now }, {}) := by
  have h1 : utf8DecodeIgnore [0x6f, 0x6b] = ['o', 'k'] := by
    simp [utf8DecodeIgnore]
  have h2 : pyDecodeUtf8Ignore [0x6f, 0x6b] = "ok" := by
    show String.mk (utf8DecodeIgnore [0x6f, 0x6b]) = "ok"
    rw [h1]
  refine ⟨rfl, h2, ?_⟩
  have hcl : classify jp (.binary [0x6f, 0x6b]) = .ignore := by
    simp [classify, frameText, h2]
  exact handleFrame_ignore jp cbT now _ c hcl

/-- Claim C10: `_last_rx` is `0.0` before the first successful connection,
is stamped with the current monotonic time on every successful connection
(before any frame arrives), and is stamped again on every inbound frame;
`last_rx_monotonic` returns it. -/
theorem claim_C10_last_rx (jp : String → Option JVal) (cbT : Dict → Bool)
    (minB maxB now : ℚ) (c : ClientState) (f : Frame) (evs : List Ev)
    (h2 : hasConnect evs = false) (h3 : framesRequireConn false evs = true) :
    last_rx_monotonic (initState minB) = 0 ∧
    (stepEv jp cbT minB maxB c (.connect now)).1.last_rx = now ∧
    (stepEv jp cbT minB maxB c (.frame f now)).1.last_rx = now ∧
    last_rx_monotonic (runEvents jp cbT minB maxB (initState minB) evs).1 = 0 := by
  refine ⟨rfl, rfl, ?_, ?_⟩
  · rcases hcl : classify jp f with _ | _ | fs <;> simp [stepEv, handleFrame, hcl]
  · exact (runEvents_last_rx_no_connect jp cbT minB maxB evs (initState minB)
      rfl h2 h3).1

/-- Witness for C10: with only a stop request and a failed attempt before
any successful connection, `last_rx_monotonic` still returns 0. -/
theorem claim_C10_last_rx_witness :
    last_rx_monotonic
      ((runEvents (fun _ => none) (fun _ => false) 1 60 (initState 1)
        [Ev.stopReq, Ev.disconnect 0]).1) = 0 :=
  (claim_C10_last_rx (fun _ => none) (fun _ => false) 1 60 0 (initState 1)
    (.text "x") [Ev.stopReq, Ev.disconnect 0] rfl rfl).2.2.2

end CrealityWS
